import Mathlib

/-!
Verification development for the layout-recalculate-detector repository.

The embedding models the trace post-processing code:
- `src/index.mjs` : `logRecalculates` (reflow aggregation and ranking) and
  `logLayoutShifts` (layout-shift report rendering);
- `src/test.mjs` : the hydration attribution analyzer (hydration marker
  search, no-stack-trace reflow window computation, and the component /
  node-module call-tree walks).

Numbers: trace timestamps and durations are microsecond counts, modelled as
`Nat`; layout-shift pixel deltas are signed, modelled as `Int`.  JavaScript
objects keyed by strings are modelled as insertion-ordered association lists,
which is exactly the enumeration order `Object.values` delivers for
non-index string keys.
-/

/-- Stack frame of a trace event (`args.beginData.stackTrace[i]`), as used by
`logRecalculates` in src/index.mjs: source url, line, column and function name. -/
structure StackFrame where
  url : String
  lineNumber : Nat
  columnNumber : Nat
  functionName : String
deriving DecidableEq

/-- Payload `args.beginData` of a trace event.  `stackTrace` is `none` when the
field is absent; an empty list models a present-but-empty array (which is
truthy in JavaScript, unlike an absent field). -/
structure BeginData where
  stackTrace : Option (List StackFrame)
deriving DecidableEq

/-- Call frame of a CPU-profile node (`args.data.cpuProfile.nodes[i].callFrame`)
used by the hydration marker search in src/test.mjs.  `functionName` is `none`
when absent (the source defaults it with `|| ""`). -/
structure CpuCallFrame where
  functionName : Option String
deriving DecidableEq

/-- One node of an embedded CPU profile (`args.data.cpuProfile.nodes[i]`). -/
structure CpuProfileNode where
  callFrame : Option CpuCallFrame
deriving DecidableEq

/-- Embedded CPU profile (`args.data.cpuProfile`). -/
structure CpuProfile where
  nodes : Option (List CpuProfileNode)
deriving DecidableEq

/-- Payload `args.data` of a trace event. -/
structure EventData where
  cpuProfile : Option CpuProfile
deriving DecidableEq

/-- The `args` payload of a trace event.  Both optional fields model possibly
absent JavaScript properties. -/
structure EventArgs where
  beginData : Option BeginData
  data : Option EventData
deriving DecidableEq

/-- A single browser trace event: `name`, timestamp `ts`, duration `dur`
(microseconds) and the `args` payload. -/
structure TraceEvent where
  name : String
  ts : Nat
  dur : Nat
  args : EventArgs
deriving DecidableEq

/-- Aggregated reflow entry built by `logRecalculates` (src/index.mjs lines
161-171): one per distinct `url:lineNumber:columnNumber` code location. -/
structure ReflowEntry where
  url : String
  functionName : String
  lineNumber : Nat
  columnNumber : Nat
  duration : Nat
  count : Nat
deriving DecidableEq

/-- Dictionary key of a stack frame, the template literal
`url:lineNumber:columnNumber` of src/index.mjs line 159. -/
def frameKey (f : StackFrame) : String :=
  f.url ++ ":" ++ toString f.lineNumber ++ ":" ++ toString f.columnNumber

/-- Dictionary key under which a `ReflowEntry` is stored. -/
def ReflowEntry.key (r : ReflowEntry) : String :=
  r.url ++ ":" ++ toString r.lineNumber ++ ":" ++ toString r.columnNumber

/-- First stack frame of an event, `traceEvent.args.beginData?.stackTrace?.[0]`
(src/index.mjs line 156); `none` when any link of the optional chain is absent
or the stack trace array is empty. -/
def TraceEvent.firstFrame (e : TraceEvent) : Option StackFrame :=
  e.args.beginData.bind fun bd => bd.stackTrace.bind List.head?

/-- Record one reflow occurrence (frame and event duration) into the keyed
accumulator, mirroring src/index.mjs lines 161-171: an existing entry for the
code location gets `duration += dur; count++`, a fresh key appends a new entry
(created with zeroes and immediately incremented, hence `duration = dur`,
`count = 1`) at the end, matching JavaScript object key insertion order. -/
def recordReflow (acc : List ReflowEntry) (p : StackFrame × Nat) : List ReflowEntry :=
  if acc.any fun r => r.key = frameKey p.1 then
    acc.map fun r =>
      if r.key = frameKey p.1 then
        { r with duration := r.duration + p.2, count := r.count + 1 }
      else r
  else
    acc ++ [{ url := p.1.url, functionName := p.1.functionName,
              lineNumber := p.1.lineNumber, columnNumber := p.1.columnNumber,
              duration := p.2, count := 1 }]

/-- One iteration of the `traceEvents.forEach` loop of `logRecalculates`
(src/index.mjs lines 154-172): skip events not named `UpdateLayoutTree`, skip
events without a first stack frame, otherwise record the occurrence. -/
def reflowStep (acc : List ReflowEntry) (e : TraceEvent) : List ReflowEntry :=
  if e.name = "UpdateLayoutTree" then
    match e.firstFrame with
    | none => acc
    | some f => recordReflow acc (f, e.dur)
  else acc

/-- The aggregation fold of `logRecalculates` over all trace events. -/
def aggregateReflows (es : List TraceEvent) : List ReflowEntry :=
  es.foldl reflowStep []

/-- The (frame, duration) pairs that survive the two guards of the
`logRecalculates` loop, in trace order. -/
def reflowPairs (es : List TraceEvent) : List (StackFrame × Nat) :=
  es.filterMap fun e =>
    if e.name = "UpdateLayoutTree" then e.firstFrame.map (fun f => (f, e.dur)) else none

/-- Descending-duration ordering used by the `.sort((a, b) => b.duration -
a.duration)` call of src/index.mjs line 175. -/
def durGE (a b : ReflowEntry) : Prop := b.duration ≤ a.duration

instance : DecidableRel durGE := fun a b => Nat.decLe b.duration a.duration

instance : IsTotal ReflowEntry durGE := ⟨fun a b => Nat.le_total b.duration a.duration⟩

instance : IsTrans ReflowEntry durGE := ⟨fun _ _ _ h1 h2 => Nat.le_trans h2 h1⟩

/-- Stable descending sort of the aggregated entries.  JavaScript
`Array.prototype.sort` is stable, and every stable sort for the same total
preorder produces the same output, so insertion sort models it exactly. -/
def sortReflows (l : List ReflowEntry) : List ReflowEntry :=
  l.insertionSort durGE

/-- A profile as accepted by `logRecalculates`: either a bare array of trace
events or an object carrying them in a `traceEvents` field (src/index.mjs
line 151). -/
inductive Profile where
  | raw : List TraceEvent → Profile
  | wrapped : List TraceEvent → Profile
deriving DecidableEq

/-- Event-list extraction `"traceEvents" in profile ? profile.traceEvents :
profile` of src/index.mjs line 151 (a bare array never has a `traceEvents`
property). -/
def Profile.traceEvents : Profile → List TraceEvent
  | .raw es => es
  | .wrapped es => es

/-- The ordered entry list that `logRecalculates` prints: aggregate, then sort
descending by total duration (src/index.mjs lines 174-175). -/
def logRecalculatesEntries (p : Profile) : List ReflowEntry :=
  sortReflows (aggregateReflows p.traceEvents)

/-! ### Hydration attribution analyzer (src/test.mjs) -/

/-- Failure modes of the analyzer script: `noHydration` models the explicit
`console.error` / `process.exit(1)` path (src/test.mjs lines 12-15), while
`lookupFailure` models an unhandled TypeError from reading a property of
`undefined` (absent `beginData`, or an out-of-range array index). -/
inductive AnalyzerError where
  | noHydration
  | lookupFailure
deriving DecidableEq

/-- Decidable equality for analyzer results, so concrete runs can be checked
by evaluation. -/
instance : DecidableEq (Except AnalyzerError (Nat × Nat)) := fun a b =>
  match a, b with
  | .ok x, .ok y => if h : x = y then isTrue (by rw [h]) else isFalse (by simp [h])
  | .error x, .error y => if h : x = y then isTrue (by rw [h]) else isFalse (by simp [h])
  | .ok _, .error _ => isFalse (by simp)
  | .error _, .ok _ => isFalse (by simp)

/-- JavaScript `String.prototype.endsWith`, character-wise. -/
def jsEndsWith (s tail : String) : Bool :=
  tail.toList.isSuffixOf s.toList

/-- Hydration-marker test of src/test.mjs lines 6-10: the event's embedded CPU
profile has a node whose call frame's function name (defaulted to the empty
string) ends with ".hydrate".  Every absent link of the optional chain yields
`false`. -/
def isHydrationEvent (e : TraceEvent) : Bool :=
  match e.args.data with
  | none => false
  | some d =>
    match d.cpuProfile with
    | none => false
    | some cp =>
      match cp.nodes with
      | none => false
      | some ns =>
        ns.any fun n =>
          match n.callFrame with
          | none => false
          | some cf => jsEndsWith (cf.functionName.getD "") ".hydrate"

/-- Per-event evaluation of the filter predicate `e.name === "UpdateLayoutTree"
&& !e.args.beginData.stackTrace` (src/test.mjs line 20).  `beginData` is read
without a guard, so an `UpdateLayoutTree` event lacking it throws (`none`);
short-circuiting protects events with a different name.  A present stack-trace
array is truthy even when empty. -/
def noStackCheck (e : TraceEvent) : Option Bool :=
  if e.name = "UpdateLayoutTree" then
    match e.args.beginData with
    | none => none
    | some bd => some bd.stackTrace.isNone
  else some false

/-- The `trace.traceEvents.filter(...)` call of src/test.mjs lines 19-21; any
event on which the predicate throws aborts the whole filter. -/
def collectNoStack : List TraceEvent → Option (List TraceEvent)
  | [] => some []
  | e :: es =>
    match noStackCheck e with
    | none => none
    | some b => (collectNoStack es).map fun t => if b then e :: t else t

/-- Index of the first element satisfying `p`, i.e. JavaScript `findIndex`
with `none` standing for its −1 result. -/
def jsFindIndexNat {α : Type} (p : α → Bool) : List α → Option Nat
  | [] => none
  | a :: as => if p a then some 0 else (jsFindIndexNat p as).map (· + 1)

/-- JavaScript array indexing `l[i]` with a possibly negative or out-of-range
index: `none` models the `undefined` result whose property access throws. -/
def jsIndex {α : Type} (l : List α) (i : Int) : Option α :=
  if h : 0 ≤ i ∧ i.toNat < l.length then some (l.get ⟨i.toNat, h.2⟩) else none

/-- Timing window `{start: x.ts, end: x.ts + (x.dur || 0)}` of a reflow event
(src/test.mjs lines 24-27); `x.dur || 0` is the identity on a natural-number
duration. -/
def redrawWindow (e : TraceEvent) : Nat × Nat :=
  (e.ts, e.ts + e.dur)

/-- The index computation `redrawTimings.findIndex(({end}) => end > ts) - 1`
of src/test.mjs lines 28-31, with findIndex's −1 for "no such window". -/
def redrawIndexBefore (windows : List (Nat × Nat)) (hts : Nat) : Int :=
  (match jsFindIndexNat (fun w => decide (hts < w.2)) windows with
   | some i => (i : Int)
   | none => -1) - 1

/-- The hydration-window pipeline of src/test.mjs lines 6-34: locate the
hydration marker (exit 1 when absent), collect the no-stack-trace
`UpdateLayoutTree` events (TypeError when one lacks `beginData`), compute the
timing windows, pick the window before the marker via `findIndex - 1` and the
next one after it, and return `[end of window before, start of window after]`;
each unguarded array access throws on an out-of-range index.  The inner
`get? hIdx` fallback is unreachable because findIndex returns an in-range
index. -/
def hydrationWindow (traceEvents : List TraceEvent) : Except AnalyzerError (Nat × Nat) :=
  match jsFindIndexNat isHydrationEvent traceEvents with
  | none => .error .noHydration
  | some hIdx =>
    match collectNoStack traceEvents with
    | none => .error .lookupFailure
    | some evs =>
      match traceEvents.get? hIdx with
      | none => .error .lookupFailure
      | some he =>
        let windows := evs.map redrawWindow
        let b := redrawIndexBefore windows he.ts
        match jsIndex windows b with
        | none => .error .lookupFailure
        | some wBefore =>
          match jsIndex windows (b + 1) with
          | none => .error .lookupFailure
          | some wAfter => .ok (wBefore.2, wAfter.1)

/-! ### Layout-shift report rendering (src/index.mjs, `logLayoutShifts`) -/

/-- Position/size delta for one DOM node implicated in a layout shift, per the
NodeDiff data model; the renderer reads `nodeName`, `xPath`, `x` and `y`. -/
structure NodeDiff where
  nodeName : String
  xPath : String
  x : Int
  y : Int
  width : Int
  height : Int
deriving DecidableEq

/-- Directional line printed for one diff by `logLayoutShifts` (src/index.mjs
lines 203-215): the y axis is checked first with JavaScript truthiness (zero
is falsy), then the x axis; a diff with both deltas zero prints no directional
line (`none`). -/
def diffDirectionLine (d : NodeDiff) : Option String :=
  if d.y ≠ 0 then
    some (" " ++ (if d.y < 0 then "⬆️" else "⬇️") ++ " moved " ++
      (if 0 < d.y then "down" else "top") ++ " by " ++ toString d.y.natAbs ++ "px")
  else if d.x ≠ 0 then
    some (" " ++ (if d.x < 0 then "⬅️" else "➡️") ++ " moved " ++
      (if 0 < d.x then "right" else "left") ++ " by " ++ toString d.x.natAbs ++ "px")
  else none

/-! ### Call-tree attribution walks (src/test.mjs, `getReactComponents` /
`getNodeModules`) -/

/-- Call frame attached to a call-tree node (`node.event?.args?.data?.callFrame`
in src/test.mjs); the absent-url case is collapsed into the empty string, which
is equally falsy in every use the source makes of it. -/
structure TreeCallFrame where
  functionName : String
  url : String
deriving DecidableEq

/-- Top-down CPU-time call tree delivered by the timeline parser: call frame
(absent on synthetic nodes), total self+descendant time, and child nodes. -/
inductive CallTree where
  | node (callFrame : Option TreeCallFrame) (totalTime : Nat) (children : List CallTree)

/-- Call frame of a tree node. -/
def CallTree.callFrame : CallTree → Option TreeCallFrame
  | .node cf _ _ => cf

/-- Total self+descendant time of a tree node. -/
def CallTree.totalTime : CallTree → Nat
  | .node _ t _ => t

/-- Children of a tree node. -/
def CallTree.children : CallTree → List CallTree
  | .node _ _ ch => ch

/-- Attribution entry accumulated by both walks: name, the matched nodes, and
the summed duration. -/
structure AttributionEntry where
  name : String
  nodes : List CallTree
  duration : Nat

/-- Add a matched node's total time under `nm`, mirroring the shared pattern of
src/test.mjs lines 70-79 and 113-121: an existing entry gets the node pushed
and `duration += node.totalTime`, otherwise a fresh entry (initialised empty
and immediately updated) is appended at the end. -/
def addAttribution (acc : List AttributionEntry) (nm : String) (t : CallTree) :
    List AttributionEntry :=
  if acc.any fun a => a.name = nm then
    acc.map fun a =>
      if a.name = nm then
        { a with nodes := a.nodes ++ [t], duration := a.duration + t.totalTime }
      else a
  else
    acc ++ [{ name := nm, nodes := [t], duration := t.totalTime }]

/-- ASCII uppercase letter, the class [A-Z] of the source regex. -/
def isAsciiUpper (c : Char) : Bool := 'A' ≤ c && c ≤ 'Z'

/-- ASCII lowercase letter, the class [a-z] of the source regex. -/
def isAsciiLower (c : Char) : Bool := 'a' ≤ c && c ≤ 'z'

/-- ASCII letter, the class [A-Za-z] of the source regex. -/
def isAsciiAlpha (c : Char) : Bool := isAsciiUpper c || isAsciiLower c

/-- The component-name regex of src/test.mjs line 68,
^[A-Z][a-z]+[A-Za-z][A-Za-z]+$ : an uppercase letter, then a split of the
remainder into a nonempty lowercase run followed by at least two letters.  The
existential over the split point is the regex's alternation of quantifier
lengths. -/
def componentNamePattern (s : String) : Bool :=
  match s.toList with
  | [] => false
  | c :: rest =>
    isAsciiUpper c &&
    ((List.range (rest.length + 1)).any fun i =>
      decide (1 ≤ i) && (rest.take i).all isAsciiLower &&
      decide (2 ≤ (rest.drop i).length) && (rest.drop i).all isAsciiAlpha)

/-- JavaScript `String.prototype.includes`: some drop of the haystack has the
needle as a prefix. -/
def strIncludes (hay needle : String) : Bool :=
  (List.range (hay.toList.length + 1)).any fun i =>
    needle.toList.isPrefixOf (hay.toList.drop i)

/-- Case-insensitive literal match at the start of the text, for the `i` flag
of the module regex (the pattern side is already lowercase). -/
def caselessHasPrefix : List Char → List Char → Bool
  | [], _ => true
  | _ :: _, [] => false
  | p :: ps, c :: cs => (c.toLower == p) && caselessHasPrefix ps cs

/-- Character admitted by the regex metacharacter `.` (anything but a line
terminator). -/
def regexDotMatches (c : Char) : Bool :=
  c != '\n' && c != '\r' && c != ' ' && c != ' '

/-- Character admitted by the class [^\\\/] of the module regex. -/
def nonSeparator (c : Char) : Bool := c != '/' && c != '\\'

/-- Capture group (@[^\\\/]+[\\\/][^\\\/]+|[^\\\/]+) of the module regex of
src/test.mjs lines 97-100, with the regex's leftmost-alternative preference:
try the scoped-package branch first and fall back to a plain nonempty
separator-free run.  The greedy [^\\\/]+ runs need no backtracking because a
shorter run would face a non-separator next character. -/
def moduleGroup (cs : List Char) : Option (List Char) :=
  let plain := let seg := cs.takeWhile nonSeparator
               if seg.isEmpty then none else some seg
  match cs with
  | '@' :: rest =>
    let seg1 := rest.takeWhile nonSeparator
    let rest1 := rest.dropWhile nonSeparator
    if seg1.isEmpty then plain
    else
      match rest1 with
      | sep :: rest2 =>
        let seg2 := rest2.takeWhile nonSeparator
        if seg2.isEmpty then plain else some ('@' :: seg1 ++ sep :: seg2)
      | [] => plain
  | _ => plain

/-- Attempt of the full module regex anchored at the current position: the
literal `node_modules` case-insensitively, one `.` character, then the capture
group. -/
def moduleAt (cs : List Char) : Option (List Char) :=
  if caselessHasPrefix "node_modules".toList cs then
    match cs.drop 12 with
    | [] => none
    | d :: rest => if regexDotMatches d then moduleGroup rest else none
  else none

/-- Leftmost-match scan of the module regex over the text. -/
def moduleScan : List Char → Option (List Char)
  | [] => none
  | c :: cs =>
    match moduleAt (c :: cs) with
    | some m => some m
    | none => moduleScan cs

/-- The captured module name `match[1]` of
`url.match(/node_modules.(@[^\\\/]+[\\\/][^\\\/]+|[^\\\/]+)/i)`
(src/test.mjs lines 97-100), `none` when the regex does not match. -/
def extractNodeModule (url : String) : Option String :=
  (moduleScan url.toList).map String.mk

/-- Fixed exclusion set of framework-internal module names (src/test.mjs lines
103-111). -/
def isIgnoredModule (m : String) : Bool :=
  m == "next" || m == "react" || m == "react-dom" || m == "scheduler" || m == "@dg/search"

/-- Callback body of `getReactComponents` (src/test.mjs lines 56-82) as a state
transformer: the returned Bool is `false` exactly when the source callback
returns `false` (prune the subtree), and `true` when it falls through
(`undefined`, keep descending). -/
def componentVisit (acc : List AttributionEntry) (t : CallTree) :
    List AttributionEntry × Bool :=
  match t.callFrame with
  | none => (acc, true)
  | some cf =>
    if cf.functionName == "ResizeObserver" then (acc, true)
    else if (cf.url != "") && !(strIncludes cf.url "node_module") &&
        componentNamePattern cf.functionName then
      (addAttribution acc cf.functionName t, false)
    else (acc, true)

/-- Callback body of `getNodeModules` (src/test.mjs lines 92-125): extract the
module name from the url (defaulted to the empty string), skip — but keep
descending through — ignored framework modules and frames without a module
path, and record matched nodes without descending. -/
def moduleVisit (acc : List AttributionEntry) (t : CallTree) :
    List AttributionEntry × Bool :=
  match t.callFrame with
  | none => (acc, true)
  | some cf =>
    match extractNodeModule cf.url with
    | none => (acc, true)
    | some m =>
      if isIgnoredModule m then (acc, true)
      else (addAttribution acc m t, false)

mutual

/-- `traverseTopDownNode` (src/test.mjs lines 43-52) specialised to the
component callback: visit the node, stop if the callback returned `false`,
otherwise recurse over the children.  The source's early return for childless
non-root nodes is a no-op (the loop over zero children does nothing) and the
depth argument has no other use, so neither is modelled. -/
def componentWalk (acc : List AttributionEntry) : CallTree → List AttributionEntry
  | .node cf tt ch =>
    match componentVisit acc (.node cf tt ch) with
    | (acc', false) => acc'
    | (acc', true) => componentForest acc' ch

/-- Left-to-right traversal of a child list for `componentWalk`. -/
def componentForest (acc : List AttributionEntry) : List CallTree → List AttributionEntry
  | [] => acc
  | c :: cs => componentForest (componentWalk acc c) cs

end

mutual

/-- `traverseTopDownNode` specialised to the node-module callback. -/
def moduleWalk (acc : List AttributionEntry) : CallTree → List AttributionEntry
  | .node cf tt ch =>
    match moduleVisit acc (.node cf tt ch) with
    | (acc', false) => acc'
    | (acc', true) => moduleForest acc' ch

/-- Left-to-right traversal of a child list for `moduleWalk`. -/
def moduleForest (acc : List AttributionEntry) : List CallTree → List AttributionEntry
  | [] => acc
  | c :: cs => moduleForest (moduleWalk acc c) cs

end

/-- Descending-duration ordering of attribution entries, the comparator
`a.duration < b.duration ? 1 : a.duration > b.duration ? -1 : 0` of
src/test.mjs lines 83-86 and 126-129. -/
def attrGE (a b : AttributionEntry) : Prop := b.duration ≤ a.duration

instance : DecidableRel attrGE := fun a b => Nat.decLe b.duration a.duration

instance : IsTotal AttributionEntry attrGE := ⟨fun a b => Nat.le_total b.duration a.duration⟩

instance : IsTrans AttributionEntry attrGE := ⟨fun _ _ _ h1 h2 => Nat.le_trans h2 h1⟩

/-- `getReactComponents()` of src/test.mjs lines 54-88: walk the tree from the
root, then sort the accumulated entries descending by duration (stable, like
JavaScript's sort). -/
def getReactComponentsOf (root : CallTree) : List AttributionEntry :=
  (componentWalk [] root).insertionSort attrGE

/-- `getNodeModules()` of src/test.mjs lines 90-131. -/
def getNodeModulesOf (root : CallTree) : List AttributionEntry :=
  (moduleWalk [] root).insertionSort attrGE

/-- Duration total of a ranking, the `reduce((a, b) => a + b.duration, 0)` of
src/test.mjs lines 136 and 149. -/
def sumAttrDurations (l : List AttributionEntry) : Nat :=
  l.foldl (fun a b => a + b.duration) 0

/-! ### Verification-side definitions and concrete inputs -/

/-- Sum of the durations in a list of (frame, duration) occurrences. -/
def sumDur (ms : List (StackFrame × Nat)) : Nat :=
  (ms.map fun p => p.2).sum

/-- Effect of folding one more event of duration `d` into an existing entry. -/
def bumpEntry (r : ReflowEntry) (d : Nat) : ReflowEntry :=
  { r with duration := r.duration + d, count := r.count + 1 }

/-- Entry created by the fold for a fresh code location. -/
def newReflowEntry (p : StackFrame × Nat) : ReflowEntry :=
  { url := p.1.url, functionName := p.1.functionName, lineNumber := p.1.lineNumber,
    columnNumber := p.1.columnNumber, duration := p.2, count := 1 }

/-- Result of successively folding the occurrences `ms` into the optional
entry already present for their common key. -/
def combineReflow : Option ReflowEntry → List (StackFrame × Nat) → Option ReflowEntry
  | o, [] => o
  | some r, p :: ps => combineReflow (some (bumpEntry r p.2)) ps
  | none, p :: ps => combineReflow (some (newReflowEntry p)) ps

/-- Specification-side description of the single aggregated entry for one code
location, following the spec's words: duration is the exact sum of the
occurrences' durations, count their number, and the identifying fields
(including functionName) come from the first occurrence. -/
def reflowEntrySpec : List (StackFrame × Nat) → Option ReflowEntry
  | [] => none
  | (f, d) :: rest =>
    some { url := f.url, functionName := f.functionName, lineNumber := f.lineNumber,
           columnNumber := f.columnNumber, duration := sumDur ((f, d) :: rest),
           count := ((f, d) :: rest).length }

/-- State of the aggregation fold of `logRecalculates` after the first `n`
trace events. -/
def reflowStateAt (es : List TraceEvent) (n : Nat) : List ReflowEntry :=
  (es.take n).foldl reflowStep []

/-- Demo stack frame at one code location. -/
def demoFrameA : StackFrame := ⟨"https://app.example/main.js", 10, 5, "renderHeader"⟩

/-- Demo stack frame at a second code location. -/
def demoFrameB : StackFrame := ⟨"https://app.example/widget.js", 3, 7, "measure"⟩

/-- Style-recalculation event with a one-frame stack trace. -/
def demoReflowEvent (f : StackFrame) (d : Nat) : TraceEvent :=
  ⟨"UpdateLayoutTree", 0, d, ⟨some ⟨some [f]⟩, none⟩⟩

/-- Demo trace: one reflow at location B, three at location A. -/
def demoTrace : List TraceEvent :=
  [demoReflowEvent demoFrameB 30, demoReflowEvent demoFrameA 100,
   demoReflowEvent demoFrameA 250, demoReflowEvent demoFrameA 50]

/-- The demo trace as a bare-array profile. -/
def demoProfile : Profile := .raw demoTrace

/-- Aggregated entry for location A of the demo trace. -/
def demoEntryA : ReflowEntry := ⟨"https://app.example/main.js", "renderHeader", 10, 5, 400, 3⟩

/-- Aggregated entry for location B of the demo trace. -/
def demoEntryB : ReflowEntry := ⟨"https://app.example/widget.js", "measure", 3, 7, 30, 1⟩

/-- Trace event carrying a CPU-profile node whose function name ends in
".hydrate", i.e. a hydration marker. -/
def hydrationMarkerEvent (t : Nat) : TraceEvent :=
  ⟨"ProfileChunk", t, 0, ⟨none, some ⟨some ⟨some [⟨some ⟨some "Root.hydrate"⟩⟩]⟩⟩⟩⟩

/-- `UpdateLayoutTree` event whose `beginData` is present but has no stack
trace — the "wraps the hydration" kind the analyzer collects. -/
def noStackReflowEvent (t d : Nat) : TraceEvent :=
  ⟨"UpdateLayoutTree", t, d, ⟨some ⟨none⟩, none⟩⟩

/-- Bracketed hydration trace: a no-stack reflow ending at 150, the marker at
200, a no-stack reflow starting at 300. -/
def demoHydrationTrace : List TraceEvent :=
  [noStackReflowEvent 100 50, hydrationMarkerEvent 200, noStackReflowEvent 300 40]

/-- Trace whose no-stack reflow windows are not in chronological order: the
window (200, 250) precedes the window (10, 20) in the event list, with the
hydration marker at timestamp 100. -/
def unorderedHydrationTrace : List TraceEvent :=
  [hydrationMarkerEvent 100, noStackReflowEvent 200 50, noStackReflowEvent 10 10]

/-- Trace in which the first no-stack window ends exactly at the hydration
marker's timestamp (150), so no window ends strictly before the marker. -/
def equalEdgeHydrationTrace : List TraceEvent :=
  [noStackReflowEvent 100 50, hydrationMarkerEvent 150, noStackReflowEvent 200 10]

/-- Trace whose only no-stack window starts and ends after the hydration
marker's timestamp. -/
def beforelessHydrationTrace : List TraceEvent :=
  [hydrationMarkerEvent 200, noStackReflowEvent 300 40]

/-- `UpdateLayoutTree` event whose `args` has no `beginData` property. -/
def noBeginDataEvent : TraceEvent := ⟨"UpdateLayoutTree", 0, 1, ⟨none, none⟩⟩

/-- Node diff that moved 15 pixels upward. -/
def upwardDiff : NodeDiff := ⟨"DIV.header", "/html/body/div[1]", 0, -15, 120, 40⟩

/-- Node diff that moved 20 pixels to the right. -/
def rightwardDiff : NodeDiff := ⟨"IMG.logo", "/html/body/img[1]", 20, 0, 32, 32⟩

/-- Call-tree node for a nested component beneath another component. -/
def innerComponentNode : CallTree :=
  .node (some ⟨"InnerComp", "https://app.example/src/inner.js"⟩) 40 []

/-- Call-tree node of a UI component whose subtree contains another component. -/
def outerComponentNode : CallTree :=
  .node (some ⟨"OuterComp", "https://app.example/src/outer.js"⟩) 100 [innerComponentNode]

/-- Call-tree node whose url lives under node_modules, nested beneath a
component node. -/
def doubleCountChild : CallTree :=
  .node (some ⟨"inner", "https://app.example/node_modules/foo/index.js"⟩) 80 []

/-- Component call-tree node containing the third-party child. -/
def doubleCountComponent : CallTree :=
  .node (some ⟨"PageShell", "https://app.example/src/page.js"⟩) 100 [doubleCountChild]

/-- Root of the double-counting tree; its total CPU time is 100. -/
def doubleCountRoot : CallTree := .node none 100 [doubleCountComponent]

/-- Call-tree node whose function name is literally "ResizeObserver": it
matches the capitalized multi-word pattern and carries a present
non-third-party url, yet src/test.mjs lines 62-64 skip it before the pattern
check; its subtree holds a nested component. -/
def resizeObserverNode : CallTree :=
  .node (some ⟨"ResizeObserver", "https://app.example/src/observer.js"⟩) 100
    [innerComponentNode]

/-! ### Lemmas about the reflow aggregation fold -/

/-- Bumping an entry does not change its dictionary key. -/
theorem bumpEntry_key (r : ReflowEntry) (d : Nat) : (bumpEntry r d).key = r.key := rfl

/-- The fresh entry is stored under the frame's key. -/
theorem newReflowEntry_key (p : StackFrame × Nat) :
    (newReflowEntry p).key = frameKey p.1 := rfl

/-- `recordReflow` written with the two named helper entries. -/
theorem recordReflow_eq (acc : List ReflowEntry) (p : StackFrame × Nat) :
    recordReflow acc p =
      if acc.any fun r => r.key = frameKey p.1 then
        acc.map fun r => if r.key = frameKey p.1 then bumpEntry r p.2 else r
      else acc ++ [newReflowEntry p] := rfl

/-- Finding by key through the update map of the existing-entry branch. -/
theorem find?_bump_map (l : List ReflowEntry) (fk : String) (d : Nat) (k : String) :
    ((l.map fun r => if r.key = fk then bumpEntry r d else r).find?
        fun r => decide (r.key = k)) =
      (l.find? fun r => decide (r.key = k)).map
        fun r => if r.key = fk then bumpEntry r d else r := by
  induction l with
  | nil => rfl
  | cons a l ih =>
    have hkey : (if a.key = fk then bumpEntry a d else a).key = a.key := by
      by_cases h : a.key = fk <;> simp [h, bumpEntry_key]
    by_cases h : a.key = k
    · rw [List.map_cons, List.find?_cons_of_pos _ (by simp only [decide_eq_true_eq, hkey]; exact h),
        List.find?_cons_of_pos _ (by simp only [decide_eq_true_eq]; exact h), Option.map_some']
    · rw [List.map_cons, List.find?_cons_of_neg _ (by simp only [decide_eq_true_eq, hkey]; exact h),
        List.find?_cons_of_neg _ (by simp only [decide_eq_true_eq]; exact h), ih]

/-- Per-key effect of recording one occurrence: an existing entry for the
occurrence's key is bumped, a missing one is created; other keys are
untouched. -/
theorem find?_recordReflow (acc : List ReflowEntry) (p : StackFrame × Nat) (k : String) :
    ((recordReflow acc p).find? fun r => decide (r.key = k)) =
      if frameKey p.1 = k then
        match acc.find? fun r => decide (r.key = k) with
        | some r => some (bumpEntry r p.2)
        | none => some (newReflowEntry p)
      else acc.find? fun r => decide (r.key = k) := by
  rw [recordReflow_eq]
  by_cases hany : (acc.any fun r => decide (r.key = frameKey p.1)) = true
  · rw [if_pos hany, find?_bump_map]
    by_cases hk : frameKey p.1 = k
    · rw [if_pos hk]
      cases hfound : acc.find? fun r => decide (r.key = k) with
      | none =>
        exfalso
        obtain ⟨x, hx, hpx⟩ := List.any_eq_true.1 hany
        exact (List.find?_eq_none.1 hfound x hx) (by simpa [hk] using hpx)
      | some r =>
        have hr : r.key = k := by simpa using List.find?_some hfound
        simp [hr, hk]
    · rw [if_neg hk]
      cases hfound : acc.find? fun r => decide (r.key = k) with
      | none => rfl
      | some r =>
        have hr : r.key = k := by simpa using List.find?_some hfound
        rw [Option.map_some', if_neg fun hcon => hk (hcon.symm.trans hr)]
  · rw [if_neg hany, List.find?_append]
    have hnone : ∀ x ∈ acc, x.key ≠ frameKey p.1 := by
      intro x hx
      by_contra hc
      exact hany (List.any_eq_true.2 ⟨x, hx, by simpa using hc⟩)
    by_cases hk : frameKey p.1 = k
    · rw [if_pos hk]
      have h1 : (acc.find? fun r => decide (r.key = k)) = none :=
        List.find?_eq_none.2 fun x hx => by simpa [hk] using hnone x hx
      rw [h1]
      simp [newReflowEntry_key, hk]
    · rw [if_neg hk]
      have h2 : (([newReflowEntry p]).find? fun r => decide (r.key = k)) = none := by
        simp [newReflowEntry_key, hk]
      rw [h2, Option.or_none]

/-- Per-key characterisation of the whole pair fold, for any starting
accumulator. -/
theorem foldl_recordReflow_find (ps : List (StackFrame × Nat)) (acc : List ReflowEntry)
    (k : String) :
    ((ps.foldl recordReflow acc).find? fun r => decide (r.key = k)) =
      combineReflow (acc.find? fun r => decide (r.key = k))
        (ps.filter fun p => decide (frameKey p.1 = k)) := by
  induction ps generalizing acc with
  | nil => simp [combineReflow]
  | cons p ps ih =>
    rw [List.foldl_cons, ih, find?_recordReflow]
    by_cases hk : frameKey p.1 = k
    · rw [if_pos hk, List.filter_cons_of_pos (by simpa using hk)]
      cases hfound : acc.find? fun r => decide (r.key = k) with
      | none => rfl
      | some r => rfl
    · rw [if_neg hk, List.filter_cons_of_neg (by simpa using hk)]

/-- The event fold of `logRecalculates` equals the pair fold over the
surviving occurrences. -/
theorem foldl_reflowStep_eq (es : List TraceEvent) (acc : List ReflowEntry) :
    es.foldl reflowStep acc = (reflowPairs es).foldl recordReflow acc := by
  induction es generalizing acc with
  | nil => rfl
  | cons e es ih =>
    rw [List.foldl_cons]
    by_cases hn : e.name = "UpdateLayoutTree"
    · cases hf : e.firstFrame with
      | none => simp [reflowStep, hn, hf, reflowPairs, List.filterMap_cons, ih]
      | some f => simp [reflowStep, hn, hf, reflowPairs, List.filterMap_cons, ih]
    · simp [reflowStep, hn, reflowPairs, List.filterMap_cons, ih]

/-- The aggregation as a pair fold. -/
theorem aggregateReflows_eq (es : List TraceEvent) :
    aggregateReflows es = (reflowPairs es).foldl recordReflow [] :=
  foldl_reflowStep_eq es []

/-- Closed form of `combineReflow` from an existing entry. -/
theorem combineReflow_some (ms : List (StackFrame × Nat)) (r : ReflowEntry) :
    combineReflow (some r) ms =
      some { r with duration := r.duration + sumDur ms, count := r.count + ms.length } := by
  induction ms generalizing r with
  | nil => simp [combineReflow, sumDur]
  | cons p ps ih =>
    rw [show combineReflow (some r) (p :: ps) = combineReflow (some (bumpEntry r p.2)) ps
        from rfl, ih]
    simp [bumpEntry, sumDur]
    omega

/-- Starting from no entry, `combineReflow` produces exactly the
specification-side entry. -/
theorem combineReflow_none (ms : List (StackFrame × Nat)) :
    combineReflow none ms = reflowEntrySpec ms := by
  cases ms with
  | nil => rfl
  | cons p ps =>
    obtain ⟨f, d⟩ := p
    rw [show combineReflow none ((f, d) :: ps) = combineReflow (some (newReflowEntry (f, d))) ps
        from rfl, combineReflow_some]
    simp [newReflowEntry, reflowEntrySpec, sumDur]
    omega

/-- Recording an occurrence keeps the entry keys free of duplicates. -/
theorem nodup_keys_recordReflow (acc : List ReflowEntry) (p : StackFrame × Nat)
    (h : (acc.map ReflowEntry.key).Nodup) :
    ((recordReflow acc p).map ReflowEntry.key).Nodup := by
  rw [recordReflow_eq]
  by_cases hany : (acc.any fun r => decide (r.key = frameKey p.1)) = true
  · rw [if_pos hany, List.map_map]
    have hcomp : (ReflowEntry.key ∘ fun r => if r.key = frameKey p.1 then bumpEntry r p.2 else r)
        = ReflowEntry.key := by
      funext r
      by_cases hr : r.key = frameKey p.1 <;> simp [Function.comp, hr, bumpEntry_key]
    rw [hcomp]
    exact h
  · rw [if_neg hany, List.map_append]
    refine List.Nodup.append h (by simp) ?_
    intro x hx hx'
    simp only [List.map_cons, List.map_nil, List.mem_singleton] at hx'
    obtain ⟨r, hr, hrk⟩ := List.mem_map.1 hx
    apply hany
    refine List.any_eq_true.2 ⟨r, hr, ?_⟩
    simp [hrk, hx', newReflowEntry_key]

/-- One fold iteration keeps the entry keys free of duplicates. -/
theorem nodup_keys_reflowStep (acc : List ReflowEntry) (e : TraceEvent)
    (h : (acc.map ReflowEntry.key).Nodup) :
    ((reflowStep acc e).map ReflowEntry.key).Nodup := by
  unfold reflowStep
  by_cases hn : e.name = "UpdateLayoutTree"
  · rw [if_pos hn]
    cases e.firstFrame with
    | none => exact h
    | some f => exact nodup_keys_recordReflow acc (f, e.dur) h
  · rw [if_neg hn]; exact h

/-- The whole fold keeps the entry keys free of duplicates. -/
theorem nodup_keys_foldl_reflowStep (es : List TraceEvent) (acc : List ReflowEntry)
    (h : (acc.map ReflowEntry.key).Nodup) :
    ((es.foldl reflowStep acc).map ReflowEntry.key).Nodup := by
  induction es generalizing acc with
  | nil => exact h
  | cons e es ih => exact ih _ (nodup_keys_reflowStep acc e h)

/-- With duplicate-free keys, finding a member entry by its own key returns
that entry. -/
theorem find?_eq_self_of_nodup (l : List ReflowEntry) (r : ReflowEntry)
    (hn : (l.map ReflowEntry.key).Nodup) (hr : r ∈ l) :
    (l.find? fun x => decide (x.key = r.key)) = some r := by
  induction l with
  | nil => cases hr
  | cons a l ih =>
    rcases List.mem_cons.1 hr with rfl | hr'
    · exact List.find?_cons_of_pos _ (by simp)
    · have hak : a.key ≠ r.key := by
        intro hc
        have : a.key ∈ l.map ReflowEntry.key := hc ▸ List.mem_map_of_mem ReflowEntry.key hr'
        exact (List.nodup_cons.1 (by simpa using hn)).1 this
      rw [List.find?_cons_of_neg _ (by simpa using hak)]
      exact ih (List.nodup_cons.1 (by simpa using hn)).2 hr'

/-- With duplicate-free keys, at most one entry matches any key. -/
theorem countP_key_le_one (l : List ReflowEntry) (k : String)
    (hn : (l.map ReflowEntry.key).Nodup) :
    l.countP (fun r => decide (r.key = k)) ≤ 1 := by
  induction l with
  | nil => simp
  | cons a l ih =>
    have hn' : (l.map ReflowEntry.key).Nodup := (List.nodup_cons.1 (by simpa using hn)).2
    by_cases h : a.key = k
    · rw [List.countP_cons_of_pos _ _ (by simpa using h)]
      have hz : l.countP (fun r => decide (r.key = k)) = 0 := by
        rw [List.countP_eq_zero]
        intro x hx hpx
        have hxk : x.key = k := by simpa using hpx
        have : a.key ∈ l.map ReflowEntry.key := by
          rw [h, ← hxk]
          exact List.mem_map_of_mem ReflowEntry.key hx
        exact (List.nodup_cons.1 (by simpa using hn)).1 this
      omega
    · rw [List.countP_cons_of_neg _ _ (by simpa using h)]
      exact ih hn'

/-- C1: for every input trace and every code-location key, the aggregation
fold of `logRecalculates` produces at most one entry for that key, and the
entry found for the key is exactly the specification-side entry for the
`UpdateLayoutTree` occurrences with that key: duration is the exact sum of
their durations, count their number, and functionName comes from the first
such occurrence (no entry when there is no such occurrence). -/
theorem reflow_aggregation_per_key (es : List TraceEvent) (k : String) :
    ((aggregateReflows es).find? fun r => decide (r.key = k)) =
      reflowEntrySpec ((reflowPairs es).filter fun p => decide (frameKey p.1 = k)) ∧
    (aggregateReflows es).countP (fun r => decide (r.key = k)) ≤ 1 := by
  constructor
  · rw [aggregateReflows_eq, foldl_recordReflow_find, List.find?_nil, combineReflow_none]
  · exact countP_key_le_one _ k (nodup_keys_foldl_reflowStep es [] (by simp))

/-- C7: feeding the aggregation the object form `{traceEvents: X}` and the
bare array `X` yields identical results — same entries, same order. -/
theorem reflow_dual_shape_agreement (X : List TraceEvent) :
    logRecalculatesEntries (Profile.wrapped X) = logRecalculatesEntries (Profile.raw X) := rfl

/-- Per-key monotonicity of one fold iteration: if the accumulator's entry for
`r`'s key is `r` itself, then after the iteration the entry for that key still
exists and has at least `r`'s duration and count. -/
theorem find?_reflowStep_mono (acc : List ReflowEntry) (e : TraceEvent) (r : ReflowEntry)
    (hfind : (acc.find? fun x => decide (x.key = r.key)) = some r) :
    (((reflowStep acc e).find? fun x => decide (x.key = r.key)).any
      fun x => decide (r.duration ≤ x.duration) && decide (r.count ≤ x.count)) = true := by
  unfold reflowStep
  by_cases hn : e.name = "UpdateLayoutTree"
  · rw [if_pos hn]
    cases e.firstFrame with
    | none => simp [hfind]
    | some f =>
      rw [find?_recordReflow]
      by_cases hk : frameKey f = r.key
      · rw [if_pos hk, hfind]
        simp [bumpEntry]
      · rw [if_neg hk, hfind]
        simp
  · rw [if_neg hn]
    simp [hfind]

/-- The fold state one event later, via `take`'s unfolding. -/
theorem reflowStateAt_succ (es : List TraceEvent) (n : Nat) :
    reflowStateAt es (n + 1) = (es[n]?.toList).foldl reflowStep (reflowStateAt es n) := by
  unfold reflowStateAt
  rw [List.take_succ, List.foldl_append]

/-- C8: throughout the aggregation fold, the state after any prefix of events
has exactly one entry per code location (duplicate-free keys), and folding in
the next event never decreases the duration or count of any present entry:
the entry with the same key afterwards has at least the old duration and
count. -/
theorem reflow_fold_invariant (es : List TraceEvent) (n : Nat) :
    ((reflowStateAt es n).map ReflowEntry.key).Nodup ∧
    ∀ r ∈ reflowStateAt es n,
      (((reflowStateAt es (n + 1)).find? fun x => decide (x.key = r.key)).any
        fun x => decide (r.duration ≤ x.duration) && decide (r.count ≤ x.count)) = true := by
  have hnodup : ((reflowStateAt es n).map ReflowEntry.key).Nodup :=
    nodup_keys_foldl_reflowStep _ [] (by simp)
  refine ⟨hnodup, fun r hr => ?_⟩
  have hfind : ((reflowStateAt es n).find? fun x => decide (x.key = r.key)) = some r :=
    find?_eq_self_of_nodup _ r hnodup hr
  rw [reflowStateAt_succ]
  cases h : es[n]? with
  | none => simp [hfind]
  | some e => simpa using find?_reflowStep_mono _ e r hfind

/-- Witness for C8 on the demo trace: after one event the state holds the
entry for location B, and the state one event later still has an entry for
that key with at least its duration and count. -/
theorem reflow_fold_invariant_witness :
    (((reflowStateAt demoTrace 2).find? fun x => decide (x.key = demoEntryB.key)).any
      fun x => decide (demoEntryB.duration ≤ x.duration) &&
        decide (demoEntryB.count ≤ x.count)) = true :=
  (reflow_fold_invariant demoTrace 1).2 demoEntryB (by decide)

/-- C3: the entry sequence printed by `logRecalculates` is sorted
non-increasing by duration — whenever index `i` precedes index `j`, the entry
at `j` has duration at most that of the entry at `i`. -/
theorem reflow_entries_sorted_desc (p : Profile) (i j : Nat) (hij : i < j)
    (a b : ReflowEntry) (ha : (logRecalculatesEntries p).get? i = some a)
    (hb : (logRecalculatesEntries p).get? j = some b) :
    b.duration ≤ a.duration := by
  have hs : (logRecalculatesEntries p).Sorted durGE :=
    List.sorted_insertionSort durGE (aggregateReflows p.traceEvents)
  obtain ⟨hi, ha'⟩ := List.get?_eq_some.1 ha
  obtain ⟨hj, hb'⟩ := List.get?_eq_some.1 hb
  have hrel := hs.rel_get_of_lt (a := ⟨i, hi⟩) (b := ⟨j, hj⟩) (Fin.mk_lt_mk.2 hij)
  rw [ha', hb'] at hrel
  exact hrel

/-- Witness for C3: in the demo profile's output the second entry's duration
is bounded by the first entry's. -/
theorem reflow_entries_sorted_desc_witness : demoEntryB.duration ≤ demoEntryA.duration :=
  reflow_entries_sorted_desc demoProfile 0 1 (by decide) demoEntryA demoEntryB
    (by decide) (by decide)

/-! ### Lemmas about the hydration window computation -/

/-- `findIndex` yields −1 (modelled as `none`) when nothing matches. -/
theorem jsFindIndexNat_eq_none {α : Type} (p : α → Bool) (l : List α)
    (h : ∀ x ∈ l, p x = false) : jsFindIndexNat p l = none := by
  induction l with
  | nil => rfl
  | cons a l ih =>
    simp [jsFindIndexNat, h a (by simp), ih fun x hx => h x (by simp [hx])]

/-- A negative JavaScript array index reads `undefined`. -/
theorem jsIndex_neg {α : Type} (l : List α) (i : Int) (h : i < 0) : jsIndex l i = none := by
  have hc : ¬ (0 ≤ i ∧ i.toNat < l.length) := fun hc => by omega
  simp [jsIndex, hc]

/-- Index 0 of a nonempty list. -/
theorem jsIndex_zero {α : Type} (a : α) (l : List α) : jsIndex (a :: l) 0 = some a := by
  simp [jsIndex]

/-- Index 1 of a list with two or more elements. -/
theorem jsIndex_one {α : Type} (a b : α) (l : List α) : jsIndex (a :: b :: l) 1 = some b := by
  have hc : (0 : Int) ≤ 1 ∧ (1 : Int).toNat < (a :: b :: l).length := by
    simp
  simp [jsIndex, hc]

/-- C2 (amended): for a trace whose hydration marker is found at index `hi`
and whose no-stack-trace `UpdateLayoutTree` events are exactly the two
bracketing events — the first ending at or before the marker's timestamp, the
second ending after it — the analyzer returns exactly
`[end of the first, start of the second]`. -/
theorem hydration_window_bracketing (tr : List TraceEvent) (hi : Nat) (he e1 e2 : TraceEvent)
    (hfind : jsFindIndexNat isHydrationEvent tr = some hi)
    (hget : tr.get? hi = some he)
    (hcollect : collectNoStack tr = some [e1, e2])
    (h1 : e1.ts + e1.dur ≤ he.ts)
    (h2 : he.ts < e2.ts + e2.dur) :
    hydrationWindow tr = .ok (e1.ts + e1.dur, e2.ts) := by
  have hn1 : ¬ he.ts < e1.ts + e1.dur := by omega
  have hb : redrawIndexBefore [(e1.ts, e1.ts + e1.dur), (e2.ts, e2.ts + e2.dur)] he.ts = 0 := by
    simp [redrawIndexBefore, jsFindIndexNat, hn1, h2]
  simp only [hydrationWindow, hfind, hcollect, hget, List.map_cons, List.map_nil,
    redrawWindow, hb]
  norm_num [jsIndex_zero, jsIndex_one]

/-- Witness for C2 on the bracketed demo trace: the computed interval is
exactly [end of the reflow before hydration, start of the reflow after]. -/
theorem hydration_window_bracketing_witness :
    hydrationWindow demoHydrationTrace = .ok (150, 300) :=
  (hydration_window_bracketing demoHydrationTrace 1 (hydrationMarkerEvent 200)
    (noStackReflowEvent 100 50) (noStackReflowEvent 300 40)
    (by decide) (by decide) (by decide) (by decide) (by decide)).trans (by decide)

/-- Counterexample to C2 as stated: in this trace the no-stack windows are not
chronologically ordered — the event list holds the window (200, 250) before
(10, 20) and the marker's timestamp is 100, so a no-stack reflow ending before
the marker exists (20 < 100) and one starting after it exists (200 > 100) —
yet instead of computing an attribution interval the analyzer fails with an
out-of-range lookup, because `findIndex` returns the first window ending after
the marker (index 0) and the code reads index −1. -/
theorem hydration_window_unordered_counterexample :
    jsFindIndexNat isHydrationEvent unorderedHydrationTrace = some 0 ∧
    (unorderedHydrationTrace.get? 0).map TraceEvent.ts = some 100 ∧
    collectNoStack unorderedHydrationTrace =
      some [noStackReflowEvent 200 50, noStackReflowEvent 10 10] ∧
    (noStackReflowEvent 10 10).ts + (noStackReflowEvent 10 10).dur < 100 ∧
    100 < (noStackReflowEvent 200 50).ts ∧
    hydrationWindow unorderedHydrationTrace = .error .lookupFailure := by decide

/-- C5 (amended): when the hydration marker is present but either every
no-stack reflow window ends after the marker's timestamp (including the case
of no windows at all, where the window before hydration does not exist and
the computed index is −1 or below), or no window's end exceeds the marker's
timestamp at all (`findIndex` returns −1, so the index is −2), the unguarded
window access fails as a lookup failure instead of being handled. -/
theorem hydration_window_out_of_range (tr : List TraceEvent) (hi : Nat) (he : TraceEvent)
    (evs : List TraceEvent)
    (hfind : jsFindIndexNat isHydrationEvent tr = some hi)
    (hget : tr.get? hi = some he)
    (hcollect : collectNoStack tr = some evs)
    (hcond : (∀ e ∈ evs, he.ts < e.ts + e.dur) ∨ (∀ e ∈ evs, e.ts + e.dur ≤ he.ts)) :
    hydrationWindow tr = .error .lookupFailure := by
  simp only [hydrationWindow, hfind, hcollect, hget]
  rcases hcond with hall | hall
  · cases evs with
    | nil =>
      have hb : redrawIndexBefore (([] : List TraceEvent).map redrawWindow) he.ts = -2 := by
        simp [redrawIndexBefore, jsFindIndexNat]
      rw [hb, jsIndex_neg _ _ (by omega)]
    | cons e es =>
      have hb : redrawIndexBefore ((e :: es).map redrawWindow) he.ts = -1 := by
        simp [redrawIndexBefore, jsFindIndexNat, redrawWindow, hall e (by simp)]
      rw [hb, jsIndex_neg _ _ (by omega)]
  · have hnone : jsFindIndexNat (fun w => decide (he.ts < w.2)) (evs.map redrawWindow)
        = none := by
      apply jsFindIndexNat_eq_none
      intro w hw
      obtain ⟨e, hemem, rfl⟩ := List.mem_map.1 hw
      have := hall e hemem
      simp [redrawWindow]
      omega
    have hb : redrawIndexBefore (evs.map redrawWindow) he.ts = -2 := by
      simp [redrawIndexBefore, hnone]
    rw [hb, jsIndex_neg _ _ (by omega)]

/-- Witness for C5 on a trace whose only no-stack window lies entirely after
the hydration marker: the analyzer fails with the unguarded lookup. -/
theorem hydration_window_out_of_range_witness :
    hydrationWindow beforelessHydrationTrace = .error .lookupFailure :=
  hydration_window_out_of_range beforelessHydrationTrace 0 (hydrationMarkerEvent 200)
    [noStackReflowEvent 300 40] (by decide) (by decide) (by decide) (Or.inl (by decide))

/-- Counterexample to C5 as stated: in this trace no no-stack window ends
strictly before the marker's timestamp 150 (the first window ends exactly at
150, the second at 210), yet the lookup finds index 0 and the analyzer
succeeds with the interval (150, 200) instead of failing. -/
theorem hydration_window_guard_counterexample :
    jsFindIndexNat isHydrationEvent equalEdgeHydrationTrace = some 1 ∧
    (equalEdgeHydrationTrace.get? 1).map TraceEvent.ts = some 150 ∧
    collectNoStack equalEdgeHydrationTrace =
      some [noStackReflowEvent 100 50, noStackReflowEvent 200 10] ∧
    ¬ (noStackReflowEvent 100 50).ts + (noStackReflowEvent 100 50).dur < 150 ∧
    ¬ (noStackReflowEvent 200 10).ts + (noStackReflowEvent 200 10).dur < 150 ∧
    hydrationWindow equalEdgeHydrationTrace = .ok (150, 200) := by decide

/-- C9: the analyzer's filter reads `args.beginData.stackTrace` without the
optional chaining the aggregator uses, so any trace containing an
`UpdateLayoutTree` event whose `args` has no `beginData` makes the whole
filter fail with a lookup-on-absent-value error, while the aggregator simply
skips the same event (it contributes no entry). -/
theorem analyzer_filter_unguarded_beginData (tr : List TraceEvent) (e : TraceEvent)
    (hmem : e ∈ tr) (hname : e.name = "UpdateLayoutTree")
    (hbd : e.args.beginData = none) :
    collectNoStack tr = none ∧ aggregateReflows [e] = [] := by
  constructor
  · induction tr with
    | nil => cases hmem
    | cons a tr ih =>
      rcases List.mem_cons.1 hmem with rfl | hmem'
      · simp [collectNoStack, noStackCheck, hname, hbd]
      · cases h : noStackCheck a with
        | none => simp [collectNoStack, h]
        | some b => simp [collectNoStack, h, ih hmem']
  · simp [aggregateReflows, reflowStep, TraceEvent.firstFrame, hname, hbd]

/-- Witness for C9: a one-bad-event trace aborts the analyzer's filter while
the aggregator ignores the event. -/
theorem analyzer_filter_unguarded_beginData_witness :
    collectNoStack [noBeginDataEvent, hydrationMarkerEvent 100] = none ∧
    aggregateReflows [noBeginDataEvent] = [] :=
  analyzer_filter_unguarded_beginData [noBeginDataEvent, hydrationMarkerEvent 100]
    noBeginDataEvent (by decide) (by decide) (by decide)

/-! ### Layout-shift rendering and call-tree attribution theorems -/

/-- Counterexample to C4 as stated: a negative y delta of −15 renders with the
upward arrow but the word "top", not "up". -/
theorem diff_direction_word_counterexample :
    upwardDiff.y = -15 ∧
    diffDirectionLine upwardDiff = some " ⬆️ moved top by 15px" ∧
    diffDirectionLine upwardDiff ≠ some " ⬆️ moved up by 15px" := by decide

/-- C4 (amended): the directional line is chosen by the axis with a non-zero
delta, y checked before x, and the sign convention round-trips exactly with
the absolute pixel magnitude — a negative y delta renders as the upward arrow
with the word "top", a positive y delta as "down", a positive x delta (with
zero y) as "right", and a negative x delta as "left"; with both deltas zero no
directional line is printed. -/
theorem diff_direction_amended (d : NodeDiff) :
    (d.y < 0 → diffDirectionLine d =
      some (" ⬆️ moved top by " ++ toString d.y.natAbs ++ "px")) ∧
    (0 < d.y → diffDirectionLine d =
      some (" ⬇️ moved down by " ++ toString d.y.natAbs ++ "px")) ∧
    (d.y = 0 → 0 < d.x → diffDirectionLine d =
      some (" ➡️ moved right by " ++ toString d.x.natAbs ++ "px")) ∧
    (d.y = 0 → d.x < 0 → diffDirectionLine d =
      some (" ⬅️ moved left by " ++ toString d.x.natAbs ++ "px")) ∧
    (d.y = 0 → d.x = 0 → diffDirectionLine d = none) := by
  refine ⟨fun h => ?_, fun h => ?_, fun hy hx => ?_, fun hy hx => ?_, fun hy hx => ?_⟩
  · have h1 : d.y ≠ 0 := by omega
    have h2 : ¬ 0 < d.y := by omega
    simp [diffDirectionLine, h1, h, h2]
  · have h1 : d.y ≠ 0 := by omega
    have h2 : ¬ d.y < 0 := by omega
    simp [diffDirectionLine, h1, h, h2]
  · have h1 : d.x ≠ 0 := by omega
    have h2 : ¬ d.x < 0 := by omega
    simp [diffDirectionLine, hy, h1, hx, h2]
  · have h1 : d.x ≠ 0 := by omega
    have h2 : ¬ 0 < d.x := by omega
    simp [diffDirectionLine, hy, h1, hx, h2]
  · simp [diffDirectionLine, hy, hx]

/-- Witness for C4 on two concrete diffs: −15 on y renders the upward line
with magnitude 15, +20 on x renders the rightward line with magnitude 20. -/
theorem diff_direction_amended_witness :
    diffDirectionLine upwardDiff = some " ⬆️ moved top by 15px" ∧
    diffDirectionLine rightwardDiff = some " ➡️ moved right by 20px" :=
  ⟨((diff_direction_amended upwardDiff).1 (by decide)).trans (by decide),
   ((diff_direction_amended rightwardDiff).2.2.1 (by decide) (by decide)).trans (by decide)⟩

/-- Adding a matched node only reads its total time, so entries' names and
durations do not depend on the node's subtree. -/
theorem addAttribution_names_durations (acc : List AttributionEntry) (nm : String)
    (t t' : CallTree) (h : t.totalTime = t'.totalTime) :
    (addAttribution acc nm t).map (fun a => (a.name, a.duration)) =
      (addAttribution acc nm t').map (fun a => (a.name, a.duration)) := by
  unfold addAttribution
  by_cases hany : (acc.any fun a => decide (a.name = nm)) = true
  · rw [if_pos hany, if_pos hany, List.map_map, List.map_map]
    apply List.map_congr_left
    intro a _
    by_cases ha : a.name = nm <;> simp [Function.comp, ha, h]
  · rw [if_neg hany, if_neg hany, List.map_append, List.map_append]
    simp [h]

/-- Counterexample to C6 as stated: the node named "ResizeObserver" satisfies
every condition the claim quantifies over — its function name matches the
capitalized multi-word pattern and its url is present and not from a
third-party dependency directory — yet the walk adds nothing under
"ResizeObserver" and does visit its subtree: the nested component beneath it
gets its own entry with its own total time.  The source's ad hoc exclusion
(src/test.mjs lines 62-64) fires before the pattern check. -/
theorem component_walk_resizeobserver_counterexample :
    componentNamePattern "ResizeObserver" = true ∧
    ((resizeObserverNode.callFrame.map fun cf =>
      (cf.url != "") && !(strIncludes cf.url "node_module")) = some true) ∧
    componentWalk [] resizeObserverNode =
      [{ name := "InnerComp", nodes := [innerComponentNode], duration := 40 }] ∧
    (componentWalk [] resizeObserverNode).map (fun a => a.name) ≠ ["ResizeObserver"] :=
  ⟨by decide, by decide, rfl, by decide⟩

/-- C6 (amended): during the component-attribution walk, a node whose call
frame has a component-pattern function name, a nonempty url not containing a
third-party module directory, and is not the explicitly excluded
"ResizeObserver", contributes its whole `totalTime` to the entry for its
function name and its subtree is never visited: the walk's result is exactly
`addAttribution` of the node itself, and the names and durations produced are
the same for any replacement subtree — so a component nested beneath such a
matching ancestor contributes nothing of its own. -/
theorem component_walk_prunes_at_match (acc : List AttributionEntry) (cf : TreeCallFrame)
    (tt : Nat) (ch ch' : List CallTree)
    (hname : cf.functionName ≠ "ResizeObserver")
    (hmatch : ((cf.url != "") && !(strIncludes cf.url "node_module") &&
      componentNamePattern cf.functionName) = true) :
    componentWalk acc (.node (some cf) tt ch) =
      addAttribution acc cf.functionName (.node (some cf) tt ch) ∧
    (componentWalk acc (.node (some cf) tt ch)).map (fun a => (a.name, a.duration)) =
      (componentWalk acc (.node (some cf) tt ch')).map (fun a => (a.name, a.duration)) := by
  have hbeq : (cf.functionName == "ResizeObserver") = false := beq_eq_false_iff_ne.2 hname
  have hwalk : ∀ ch0 : List CallTree, componentWalk acc (.node (some cf) tt ch0) =
      addAttribution acc cf.functionName (.node (some cf) tt ch0) := by
    intro ch0
    rw [componentWalk]
    simp [componentVisit, CallTree.callFrame, hbeq, hmatch]
  refine ⟨hwalk ch, ?_⟩
  rw [hwalk ch, hwalk ch']
  exact addAttribution_names_durations acc cf.functionName _ _ rfl

/-- Witness for C6: walking a component node whose subtree holds another
matching component yields one entry, for the outer component only, with the
outer node's total time. -/
theorem component_walk_prunes_at_match_witness :
    componentWalk [] outerComponentNode =
      [{ name := "OuterComp", nodes := [outerComponentNode], duration := 100 }] :=
  ((component_walk_prunes_at_match [] ⟨"OuterComp", "https://app.example/src/outer.js"⟩
    100 [innerComponentNode] [] (by decide) (by decide)).1).trans rfl

/-- C10: the component ranking and the module ranking are independent walks
pruning only at their own matches, so a third-party node nested beneath a
matched component is counted in both rankings: on this tree the component walk
attributes 100 to the component, the module walk attributes 80 to the module
nested beneath that same component, and the two rankings' totals sum to 180,
exceeding the tree's actual CPU time of 100. -/
theorem dual_walk_double_count :
    getReactComponentsOf doubleCountRoot =
      [{ name := "PageShell", nodes := [doubleCountComponent], duration := 100 }] ∧
    getNodeModulesOf doubleCountRoot =
      [{ name := "foo", nodes := [doubleCountChild], duration := 80 }] ∧
    doubleCountChild ∈ doubleCountComponent.children ∧
    sumAttrDurations (getReactComponentsOf doubleCountRoot) +
      sumAttrDurations (getNodeModulesOf doubleCountRoot) > doubleCountRoot.totalTime := by
  refine ⟨rfl, rfl, ?_, ?_⟩
  · simp [doubleCountComponent, CallTree.children]
  · decide
